import Mathlib

/-!
Verification development for the ticos-client Python SDK
(`ticos_client/ticos_client.py`, `ticos_client/storage.py`,
`ticos_client/models.py`).

The embedding below mirrors the source:
* `Msg` / `Mem` embed the pydantic `Message` / `Memory` models
  (`models.py`), with the stored `id` kept as the SQLite TEXT it is
  persisted as;
* the row-level functions embed the SQL statements executed by
  `SQLiteStorageService` (`storage.py`), with the `messages` table
  modelled as a list of rows;
* `StoreState` adds the `self.conn` handle so that the
  "not initialized" behaviour after `close()` is visible;
* `DbFile` together with `initializeDb` / `migrateDatabase` embeds
  `SQLiteStorageService.initialize` / `_migrate_database`;
* `genMessageId` embeds `TicosClient._generate_message_id`;
* `processEvent` embeds the storage section of
  `TicosClient.handle_message` (streaming reassembly plus the
  memory-trigger counter), and `dispatchMessage` embeds its
  handler-dispatch section and return value.
-/

set_option autoImplicit false

namespace Ticos

/-- Embeds `MessageRole` from `models.py`. -/
inductive Role where
  | user
  | assistant
  | system
deriving DecidableEq, Repr

/-- Embeds the stored shape of `Message` (`models.py` plus the
`messages` table schema of `storage.py`).  The `id` column is TEXT, so
it is kept as a `String`; `item_id` is nullable. -/
structure Msg where
  id : String
  role : Role
  content : String
  item_id : Option String
  user_id : String
  datetime : String
deriving DecidableEq, Repr

/-- Embeds `MemoryType` from `models.py`. -/
inductive MemKind where
  | short_term
  | long_term
deriving DecidableEq, Repr

/-- Embeds the stored shape of `Memory` (`models.py` plus the
`memories` table schema). -/
structure Mem where
  id : Nat
  kind : MemKind
  content : String
  user_id : String
  datetime : String
deriving DecidableEq, Repr

/-! ## Row-level operations on the `messages` table

The table is a list of rows; `id` is the primary key.  SQLite compares
TEXT bytewise, which on UTF-8 agrees with the codepoint-lexicographic
order on `String` used here. -/

/-- Embeds `INSERT OR REPLACE INTO messages` (`save_message`,
storage.py:299-322): any existing row with the same primary key is
replaced. -/
def saveRow (rows : List Msg) (m : Msg) : List Msg :=
  rows.filter (fun r => r.id ≠ m.id) ++ [m]

/-- Embeds `SELECT ... FROM messages WHERE id = ?` with `fetchone`
(`get_message`, storage.py:324-346). -/
def findRowById (rows : List Msg) (mid : String) : Option Msg :=
  rows.find? (fun r => r.id = mid)

/-- Embeds `SELECT ... FROM messages WHERE item_id = ?` with `fetchone`
(`get_message_by_item_id`, storage.py:456-478). -/
def findRowByItemId (rows : List Msg) (iid : String) : Option Msg :=
  rows.find? (fun r => r.item_id = some iid)

/-- Embeds `DELETE FROM messages WHERE id = ?` (`delete_message`,
storage.py:417-427). -/
def deleteRow (rows : List Msg) (mid : String) : List Msg :=
  rows.filter (fun r => r.id ≠ mid)

/-- The trailing punctuation characters stripped by
`normalize_for_comparison` (storage.py:371-375). -/
def trailingPunct : List Char := ['。', '，', ',', '.', '?', '!', '？', '！']

/-- Case split of `normalize_for_comparison` on the optional last
character of the text. -/
def stripTrailing (s : String) : Option Char → String
  | some c => if c ∈ trailingPunct then ⟨s.data.dropLast⟩ else s
  | none => s

/-- Embeds `normalize_for_comparison` (storage.py:371-375): drop the
last character when it is trailing sentence punctuation. -/
def normalizeForComparison (s : String) : String :=
  stripTrailing s s.data.getLast?

/-- Combining step for `prevRow`: keep whichever candidate row has the
larger id. -/
def laterOf (r : Msg) : Option Msg → Option Msg
  | none => some r
  | some b => if b.id.data < r.id.data then some r else some b

/-- Embeds `SELECT id, role, content FROM messages WHERE id < ?
ORDER BY id DESC LIMIT 1` (storage.py:380-387): the row with the
largest id strictly below `mid`.  SQLite compares TEXT bytewise, which
on UTF-8 is the lexicographic order on the character lists used
here. -/
def prevRow (mid : String) : List Msg → Option Msg
  | [] => none
  | r :: rest =>
    if r.id.data < mid.data then laterOf r (prevRow mid rest)
    else prevRow mid rest

/-- The effect of the `UPDATE messages SET ...` statement of
`update_message` (storage.py:355-368) on one row: a row whose id
equals `mid` gets the new field values; the id column itself is not
changed. -/
def applyUpdateOne (m : Msg) (mid : String) (r : Msg) : Msg :=
  if r.id = mid then
    { r with role := m.role, content := m.content, item_id := m.item_id,
             user_id := m.user_id, datetime := m.datetime }
  else r

/-- The `UPDATE` statement applied to the whole table. -/
def applyUpdate (m : Msg) (mid : String) (rows : List Msg) : List Msg :=
  rows.map (applyUpdateOne m mid)

/-- The user-message de-duplication step of `update_message`
(storage.py:377-409), applied to the result of the previous-row query:
delete the preceding row when it is also a user row and the two
normalized texts are in a strict one-way startswith relation. -/
def dedupDelete (updated : List Msg) (m : Msg) : Option Msg → List Msg × Int
  | some p =>
    if p.role = Role.user then
      if ((normalizeForComparison p.content).data.isPrefixOf
            (normalizeForComparison m.content).data ∨
          (normalizeForComparison m.content).data.isPrefixOf
            (normalizeForComparison p.content).data) ∧
          normalizeForComparison m.content ≠ normalizeForComparison p.content then
        (updated.filter (fun r => r.id ≠ p.id),
         ((updated.filter (fun r => r.id = p.id)).length : Int))
      else (updated, -1)
    else (updated, -1)
  | none => (updated, -1)

/-- Embeds the body of `update_message` (storage.py:348-412): perform
the UPDATE, then, for a user message, run the de-duplication step on
the immediately preceding row.  The second component models
`cursor.rowcount` as left by the last executed statement (`-1` after a
SELECT, row counts after UPDATE/DELETE). -/
def updateRows (rows : List Msg) (mid : String) (m : Msg) : List Msg × Int :=
  if m.role = Role.user then
    dedupDelete (applyUpdate m mid rows) m (prevRow mid (applyUpdate m mid rows))
  else (applyUpdate m mid rows, ((rows.filter (fun r => r.id = mid)).length : Int))

/-! ## The SQLite storage service with its connection handle -/

/-- Embeds the mutable state of `SQLiteStorageService`: the `conn`
handle (`true` between `initialize()` and `close()`) and the two
tables. -/
structure StoreState where
  conn : Bool
  messages : List Msg
  memories : List Mem
deriving DecidableEq, Repr

/-- Embeds `close` (storage.py:599-607): the connection is released;
errors while closing are swallowed. -/
def closeStore (st : StoreState) : StoreState :=
  { st with conn := false }

/-- Embeds `save_message` (storage.py:299-322): `_get_connection`
raises when `conn` is `None`, the surrounding `except` catches it and
returns `False`. -/
def saveMessageS (st : StoreState) (m : Msg) : StoreState × Bool :=
  if st.conn then ({ st with messages := saveRow st.messages m }, true)
  else (st, false)

/-- Embeds `get_message` (storage.py:324-346); returns `None` both on a
missing row and on a storage error. -/
def getMessageS (st : StoreState) (mid : String) : Option Msg :=
  if st.conn then findRowById st.messages mid else none

/-- Embeds `get_message_by_item_id` (storage.py:456-478). -/
def getMessageByItemIdS (st : StoreState) (iid : String) : Option Msg :=
  if st.conn then findRowByItemId st.messages iid else none

/-- Embeds `update_message` (storage.py:348-415); the boolean is
`cursor.rowcount > 0`, or `False` on a storage error. -/
def updateMessageS (st : StoreState) (mid : String) (m : Msg) : StoreState × Bool :=
  if st.conn then
    let (rows, rc) := updateRows st.messages mid m
    ({ st with messages := rows }, rc > 0)
  else (st, false)

/-- Embeds `delete_message` (storage.py:417-427). -/
def deleteMessageS (st : StoreState) (mid : String) : StoreState × Bool :=
  if st.conn then
    let delCount := (st.messages.filter (fun r => r.id = mid)).length
    ({ st with messages := deleteRow st.messages mid }, delCount > 0)
  else (st, false)

/-- Embeds `get_messages` (storage.py:429-454): `ORDER BY datetime`
with LIMIT/OFFSET; returns `[]` on a storage error. -/
def getMessagesS (st : StoreState) (offset limit : Nat) (desc : Bool) : List Msg :=
  if st.conn then
    let sorted :=
      if desc then st.messages.mergeSort (fun a b => b.datetime ≤ a.datetime)
      else st.messages.mergeSort (fun a b => a.datetime ≤ b.datetime)
    (sorted.drop offset).take limit
  else []

/-- Embeds `save_memory` (storage.py:480-496): plain INSERT with an
auto-increment id. -/
def saveMemoryS (st : StoreState) (m : Mem) : StoreState × Bool :=
  if st.conn then
    let nextId := (st.memories.map Mem.id).foldl max 0 + 1
    ({ st with memories := st.memories ++ [{ m with id := nextId }] }, true)
  else (st, false)

/-- Embeds `get_latest_memory` (storage.py:551-571): `ORDER BY datetime
DESC LIMIT 1`. -/
def getLatestMemoryS (st : StoreState) : Option Mem :=
  if st.conn then
    (st.memories.mergeSort (fun a b => b.datetime ≤ a.datetime)).head?
  else none

/-! ## Database file state, initialization and migration -/

/-- The persisted state of one SQLite database file as seen by
`SQLiteStorageService.initialize` (storage.py:126-212): whether the
file exists on disk, the append-only `db_version` rows, and the column
lists of the two tables (`none` = table absent). -/
structure DbFile where
  onDisk : Bool
  versions : List Nat
  messagesCols : Option (List String)
  memoriesCols : Option (List String)
deriving DecidableEq, Repr

/-- Schema version constant `CURRENT_DB_VERSION` (storage.py:102). -/
def CURRENT_DB_VERSION : Nat := 1

/-- Columns of the latest `messages` schema (storage.py:219-230). -/
def latestMessagesCols : List String :=
  ["id", "role", "content", "item_id", "user_id", "datetime"]

/-- Columns of the latest `memories` schema (storage.py:234-244). -/
def latestMemoriesCols : List String :=
  ["id", "type", "content", "user_id", "datetime"]

/-- Embeds `_create_latest_schema` (storage.py:214-247): both `CREATE
TABLE IF NOT EXISTS` statements, which leave an existing table
untouched. -/
def createLatestSchema (f : DbFile) : DbFile :=
  { f with
    messagesCols := some (f.messagesCols.getD latestMessagesCols),
    memoriesCols := some (f.memoriesCols.getD latestMemoriesCols) }

/-- One `PRAGMA table_info` check followed by a conditional `ALTER
TABLE ... ADD COLUMN user_id` (storage.py:258-270): the pragma returns
no rows for a missing table, so the guard passes and the ALTER then
fails on the missing table. -/
def addUserIdColumn (tbl : Option (List String)) (tableName : String) :
    Except String (Option (List String)) :=
  if "user_id" ∈ tbl.getD [] then Except.ok tbl
  else
    match tbl with
    | none => Except.error ("no such table: " ++ tableName)
    | some cs => Except.ok (some (cs ++ ["user_id"]))

/-- Embeds `_migrate_database` (storage.py:249-288): the version 0 → 1
step adds the `user_id` column to each table unless it is already
present. -/
def migrateDatabase (f : DbFile) (currentVersion : Nat) : Except String DbFile :=
  if currentVersion < 1 then
    match addUserIdColumn f.messagesCols "messages" with
    | Except.error e => Except.error e
    | Except.ok mc =>
      match addUserIdColumn f.memoriesCols "memories" with
      | Except.error e => Except.error e
      | Except.ok kc => Except.ok { f with messagesCols := mc, memoriesCols := kc }
  else Except.ok f

/-- The stamped schema version: `SELECT version FROM db_version ORDER
BY id DESC LIMIT 1` over the append-only rows (storage.py:175-177). -/
def stampedVersion (f : DbFile) : Nat :=
  (f.versions.getLast?).getD 0

/-- Embeds `initialize` (storage.py:126-212).  `db_exists` is sampled
before `sqlite3.connect` creates the file; a fresh file gets the
latest schema plus a version stamp, an existing file whose stamped
version is behind `CURRENT_DB_VERSION` is migrated and restamped, and
an up-to-date file is left unchanged.  Exceptions propagate
(`initialize` re-raises). -/
def initializeDb (f : DbFile) : Except String DbFile :=
  let dbExists := f.onDisk
  let f₀ := { f with onDisk := true }
  let current := stampedVersion f₀
  if ¬ dbExists then
    let f₁ := createLatestSchema f₀
    Except.ok { f₁ with versions := f₁.versions ++ [CURRENT_DB_VERSION] }
  else if current < CURRENT_DB_VERSION then
    match migrateDatabase f₀ current with
    | Except.error e => Except.error e
    | Except.ok f₁ => Except.ok { f₁ with versions := f₁.versions ++ [CURRENT_DB_VERSION] }
  else Except.ok f₀

/-! ## Message-id generation -/

/-- Embeds `_generate_message_id` (ticos_client.py:86-101): both the
returned id and the updated `_last_message_id` (they coincide).  `t`
is `int(time.time())` at the moment of the call. -/
def genMessageId (t lastId : Nat) : Nat :=
  if t ≤ lastId then lastId + 1 else t

/-- The ids issued by repeated `_generate_message_id` calls at the
given sequence of wall-clock times, starting from `lastId`. -/
def genIds (lastId : Nat) : List Nat → List Nat
  | [] => []
  | t :: ts =>
    let n := genMessageId t lastId
    n :: genIds n ts

/-! ## The client: streaming reassembly, memory trigger, dispatch

`processEvent` embeds the storage section of
`TicosClient.handle_message` (ticos_client.py:448-610) for a client
whose local storage is enabled (`self.storage` is set).  Python string
truthiness is rendered by comparison with `""`; an absent
`message.get(...)` string field is rendered as `""` (both are falsy
and the branches below only use them through truthiness tests). -/

/-- Embeds `self._audio_transcript_cache` (ticos_client.py:71). -/
structure Cache where
  itemId : Option String
  message : Option Msg
  content : String
deriving DecidableEq, Repr

/-- The reset cache value (ticos_client.py:71 and 122-127). -/
def emptyCache : Cache := { itemId := none, message := none, content := "" }

/-- Python truthiness of the cached `item_id` (`None` and `""` are
falsy). -/
def optTruthy : Option String → Bool
  | none => false
  | some s => s ≠ ""

/-- The mutable client state used by the storage section of
`handle_message`: the storage service, the transcript cache, the
memory counter, `_last_message_id`, and the two configuration values
read there (`context_rounds` and whether
`model.enable_memory_generation` is `"client"`). -/
structure ClientState where
  db : StoreState
  cache : Cache
  counter : Nat
  lastId : Nat
  contextRounds : Nat
  memoryGen : Bool
deriving DecidableEq, Repr

/-- The inbound envelopes distinguished by the storage section of
`handle_message`, after extracting the fields each branch reads.
`itemCreatedUserAudio` stands for a `conversation.item.created`
whose item is a user message containing an `input_audio` content part;
`outputItemDoneFunctionCall` carries the function name and whether its
`arguments` string parsed as JSON.  Everything else is `other`. -/
inductive Envelope where
  | itemCreatedUserAudio (itemId : Option String)
  | transcriptionCompleted (itemId : String) (transcript : String)
  | responseDone
  | audioTranscriptDelta (itemId : String) (delta : String)
  | conversationCreated
  | outputItemDoneFunctionCall (fname : String) (argsValid : Bool)
  | other
deriving DecidableEq, Repr

/-- Whether the envelope's `type` string equals
`"conversation.item.created"` (ticos_client.py:592). -/
def isItemCreated : Envelope → Bool
  | Envelope.itemCreatedUserAudio _ => true
  | _ => false

/-- One inbound envelope together with the ambient wall clock at the
moment it is handled: `time` is `int(time.time())` and `now` the
formatted `datetime.now()` string. -/
structure Event where
  env : Envelope
  time : Nat
  now : String
deriving DecidableEq, Repr

/-- Embeds `_save_cached_audio_transcript` (ticos_client.py:103-127):
when both a draft message and non-empty accumulated content are
cached, write the content into the draft, upsert it, and reset the
cache. -/
def saveCachedAudioTranscript (db : StoreState) (c : Cache) : StoreState × Cache :=
  match c.message with
  | some m =>
    if c.content ≠ "" then
      let m' := { m with content := c.content }
      ((saveMessageS db m').1, emptyCache)
    else (db, c)
  | none => (db, c)

/-- The update performed on receiving a completed input transcription
(ticos_client.py:499-521), as a function of the `item_id` lookup
result: overwrite the found message's content with the transcript and
store the update; drop the event when no message is found. -/
def applyTranscript (st : ClientState) (transcript : String) : Option Msg → ClientState
  | some msg =>
    { st with db := (updateMessageS st.db msg.id { msg with content := transcript }).1 }
  | none => st

/-- The outcome of one `handle_message` storage pass: the new state,
the `text_message` flag it computed, and whether the threshold fired
and the detached `memory_generation` background task was started. -/
structure StepResult where
  state : ClientState
  textMessage : Bool
  launchedMemGen : Bool
deriving DecidableEq, Repr

/-- The counter block at ticos_client.py:591-606: when `text_message`
is set and the envelope is not a `conversation.item.created`, and
client-side memory generation is enabled, increment the counter; when
`counter * 2 >= context_rounds`, reset it and launch the background
memory-generation task. -/
def counterStep (st : ClientState) (env : Envelope) (textMessage : Bool) : StepResult :=
  if textMessage ∧ ¬ isItemCreated env then
    if st.memoryGen then
      if (st.counter + 1) * 2 ≥ st.contextRounds then
        { state := { st with counter := 0 }, textMessage, launchedMemGen := true }
      else
        { state := { st with counter := st.counter + 1 }, textMessage, launchedMemGen := false }
    else { state := st, textMessage, launchedMemGen := false }
  else { state := st, textMessage, launchedMemGen := false }

/-- Embeds the storage section of `handle_message`
(ticos_client.py:448-610) for one envelope. -/
def processEvent (st : ClientState) (ev : Event) : StepResult :=
  match ev.env with
  | Envelope.itemCreatedUserAudio itemId =>
    -- ticos_client.py:457-489: persist a placeholder user message with
    -- empty content; text_message stays False.
    let n := genMessageId ev.time st.lastId
    let msg : Msg := { id := toString n, role := Role.user, content := "",
                       item_id := itemId, user_id := "nobody", datetime := ev.now }
    let db' := (saveMessageS st.db msg).1
    counterStep { st with db := db', lastId := n } ev.env false
  | Envelope.transcriptionCompleted itemId transcript =>
    -- ticos_client.py:491-521: look the placeholder up by item_id and
    -- overwrite its content; text_message stays False.
    if itemId ≠ "" then
      counterStep (applyTranscript st transcript (getMessageByItemIdS st.db itemId))
        ev.env false
    else counterStep st ev.env false
  | Envelope.responseDone =>
    -- ticos_client.py:523-531: flush the cached assistant draft.
    if optTruthy st.cache.itemId ∧ st.cache.message.isSome then
      counterStep
        { st with db := (saveCachedAudioTranscript st.db st.cache).1,
                  cache := (saveCachedAudioTranscript st.db st.cache).2 } ev.env true
    else counterStep st ev.env false
  | Envelope.audioTranscriptDelta itemId delta =>
    -- ticos_client.py:533-576: flush on item switch, then create or
    -- extend the draft.
    if delta ≠ "" ∧ itemId ≠ "" then
      let st₁ :=
        if optTruthy st.cache.itemId ∧ st.cache.itemId ≠ some itemId then
          { st with db := (saveCachedAudioTranscript st.db st.cache).1,
                    cache := (saveCachedAudioTranscript st.db st.cache).2 }
        else st
      let flushed : Bool :=
        if optTruthy st.cache.itemId ∧ st.cache.itemId ≠ some itemId then true else false
      if ¬ optTruthy st₁.cache.itemId ∨ st₁.cache.itemId ≠ some itemId then
        let n := genMessageId ev.time st₁.lastId
        let msg : Msg := { id := toString n, role := Role.assistant, content := "",
                           item_id := some itemId, user_id := "nobody", datetime := ev.now }
        counterStep
          { st₁ with
            cache := { itemId := some itemId, message := some msg, content := delta },
            lastId := n } ev.env flushed
      else
        counterStep
          { st₁ with
            cache := { st₁.cache with content := st₁.cache.content ++ delta } } ev.env flushed
    else counterStep st ev.env false
  | Envelope.conversationCreated =>
    -- ticos_client.py:579-586: only launches the initial
    -- memory-update task, not memory generation; no storage effect.
    counterStep st ev.env false
  | Envelope.outputItemDoneFunctionCall _ _ => counterStep st ev.env false
  | Envelope.other => counterStep st ev.env false

/-- Folds `processEvent` over a sequence of handled envelopes. -/
def processEvents (st : ClientState) (evs : List Event) : ClientState :=
  evs.foldl (fun s e => (processEvent s e).state) st

/-! ## Handler dispatch and the return value of `handle_message` -/

/-- Which of the optional handlers are registered on the client
(`self.message_handler`, `self.motion_handler`, `self.emotion_handler`,
`self.function_call_handler`; ticos_client.py:60-63). -/
structure Handlers where
  messageH : Bool
  motionH : Bool
  emotionH : Bool
  functionH : Bool
deriving DecidableEq, Repr

/-- The dispatch outcome of one `handle_message` call: its boolean
return value and which function-call handlers were invoked. -/
structure DispatchResult where
  ret : Bool
  motionCalled : Bool
  emotionCalled : Bool
  genericCalled : Bool
deriving DecidableEq, Repr

/-- Embeds the dispatch section of `handle_message`
(ticos_client.py:612-664): the registered message handler always runs
and marks the envelope handled; for a `response.output_item.done`
carrying a function-call item, the motion and emotion handlers run by
name, and the generic function-call handler runs only when neither of
those did. -/
def dispatchMessage (h : Handlers) (env : Envelope) : DispatchResult :=
  let overall := h.messageH
  match env with
  | Envelope.outputItemDoneFunctionCall fname _ =>
    let motionCalled := (fname = "motion" ∨ fname = "motion_and_emotion") ∧ h.motionH
    let emotionCalled := (fname = "emotion" ∨ fname = "motion_and_emotion") ∧ h.emotionH
    let handlersCalled := motionCalled ∨ emotionCalled
    let genericCalled := ¬ handlersCalled ∧ h.functionH
    let handlersCalled' := handlersCalled ∨ genericCalled
    { ret := overall ∨ handlersCalled', motionCalled := motionCalled,
      emotionCalled := emotionCalled, genericCalled := genericCalled }
  | _ => { ret := overall, motionCalled := false, emotionCalled := false,
           genericCalled := false }

/-! ## Helper lemmas -/

/-- Every id issued from `lastId` onwards is strictly above `lastId`. -/
theorem genIds_gt (ts : List Nat) : ∀ (lastId : Nat), ∀ n ∈ genIds lastId ts, lastId < n := by
  induction ts with
  | nil => intro lastId n hn; simp [genIds] at hn
  | cons t ts ih =>
    intro lastId n hn
    simp only [genIds, List.mem_cons] at hn
    have hgt : lastId < genMessageId t lastId := by
      unfold genMessageId
      split <;> omega
    rcases hn with rfl | hn
    · exact hgt
    · exact lt_trans hgt (ih (genMessageId t lastId) n hn)

/-- The issued id sequence is strictly increasing. -/
theorem genIds_pairwise_lt (ts : List Nat) :
    ∀ (lastId : Nat), List.Pairwise (· < ·) (genIds lastId ts) := by
  induction ts with
  | nil => intro lastId; simp [genIds]
  | cons t ts ih =>
    intro lastId
    simp only [genIds]
    exact List.Pairwise.cons (fun n hn => genIds_gt ts (genMessageId t lastId) n hn)
      (ih (genMessageId t lastId))

/-- `find?` over an upsert result: the freshly appended row wins. -/
theorem find?_saveRow (l : List Msg) (m : Msg) :
    (saveRow l m).find? (fun r => r.id = m.id) = some m := by
  unfold saveRow
  induction l with
  | nil => simp [List.find?]
  | cons r l ih =>
    by_cases h : r.id = m.id
    · simp [h, ih]
    · simp [List.filter_cons, h, List.find?, ih]

/-! ## Claim theorems -/

/-- Claim C8: within one process lifetime the generated message ids
are unique and monotonically non-decreasing (in fact strictly
increasing), and each id is the current wall-clock seconds value
except that on a collision (current value ≤ last-issued id) the
last-issued id is bumped by one instead. -/
theorem claim_C8_message_id_generation (lastId : Nat) (ts : List Nat) :
    List.Pairwise (· < ·) (genIds lastId ts) ∧
    (genIds lastId ts).Nodup ∧
    List.Pairwise (· ≤ ·) (genIds lastId ts) ∧
    ∀ t l, genMessageId t l = if t ≤ l then l + 1 else t := by
  refine ⟨genIds_pairwise_lt ts lastId, ?_, ?_, fun t l => rfl⟩
  · exact (genIds_pairwise_lt ts lastId).imp Nat.ne_of_lt
  · exact (genIds_pairwise_lt ts lastId).imp Nat.le_of_lt

/-- Claim C6: on an initialized store, `save_message(m)` followed by
`get_message(m.id)` returns a message equal to `m` in every field. -/
theorem claim_C6_save_get_roundtrip (st : StoreState) (m : Msg) (hconn : st.conn = true) :
    getMessageS (saveMessageS st m).1 m.id = some m := by
  simp only [saveMessageS, getMessageS, hconn, if_true]
  simpa [findRowById] using find?_saveRow st.messages m

/-- Witness for claim C6 at a concrete store and message. -/
theorem claim_C6_save_get_roundtrip_witness :
    getMessageS (saveMessageS ⟨true, [], []⟩
        ⟨"100", Role.user, "hi", none, "nobody", "2024-01-01 00:00:00"⟩).1 "100" =
      some ⟨"100", Role.user, "hi", none, "nobody", "2024-01-01 00:00:00"⟩ :=
  claim_C6_save_get_roundtrip ⟨true, [], []⟩
    ⟨"100", Role.user, "hi", none, "nobody", "2024-01-01 00:00:00"⟩ rfl

/-- Claim C9: after `close()` every storage operation reports a
falsy/empty result (and, the model being total, no exception reaches
the caller): saves and updates return `false` and leave the state
unchanged, lookups return `none`, listings return `[]`. -/
theorem claim_C9_closed_store_operations (st : StoreState) (m : Msg) (mid iid : String)
    (off lim : Nat) (desc : Bool) (mem : Mem) :
    (saveMessageS (closeStore st) m).2 = false ∧
    (saveMessageS (closeStore st) m).1 = closeStore st ∧
    getMessageS (closeStore st) mid = none ∧
    (updateMessageS (closeStore st) mid m).2 = false ∧
    (updateMessageS (closeStore st) mid m).1 = closeStore st ∧
    (deleteMessageS (closeStore st) mid).2 = false ∧
    getMessagesS (closeStore st) off lim desc = [] ∧
    getMessageByItemIdS (closeStore st) iid = none ∧
    (saveMemoryS (closeStore st) mem).2 = false ∧
    getLatestMemoryS (closeStore st) = none := by
  simp [closeStore, saveMessageS, getMessageS, updateMessageS, deleteMessageS,
    getMessagesS, getMessageByItemIdS, saveMemoryS, getLatestMemoryS]

/-- Claim C5 counterexample: with only the general message handler
registered, a `response.output_item.done` function call named
`"motion"` invokes none of the motion/emotion/generic handlers, yet
`handle_message` still returns `true` — refuting the claimed
"true iff at least one of those handlers accepted the call". -/
theorem claim_C5_counterexample :
    (dispatchMessage ⟨true, false, false, false⟩
        (Envelope.outputItemDoneFunctionCall "motion" true)).ret = true ∧
    (dispatchMessage ⟨true, false, false, false⟩
        (Envelope.outputItemDoneFunctionCall "motion" true)).motionCalled = false ∧
    (dispatchMessage ⟨true, false, false, false⟩
        (Envelope.outputItemDoneFunctionCall "motion" true)).emotionCalled = false ∧
    (dispatchMessage ⟨true, false, false, false⟩
        (Envelope.outputItemDoneFunctionCall "motion" true)).genericCalled = false := by
  decide

/-- Claim C5 (amended): for a `response.output_item.done` function-call
envelope, `handle_message` returns `true` iff the general message
handler is registered or at least one of the motion, emotion, or
generic function-call handlers accepted the call. -/
theorem claim_C5_dispatch_return (h : Handlers) (fname : String) (v : Bool) :
    (dispatchMessage h (Envelope.outputItemDoneFunctionCall fname v)).ret = true ↔
      (h.messageH = true ∨
       (dispatchMessage h (Envelope.outputItemDoneFunctionCall fname v)).motionCalled = true ∨
       (dispatchMessage h (Envelope.outputItemDoneFunctionCall fname v)).emotionCalled = true ∨
       (dispatchMessage h (Envelope.outputItemDoneFunctionCall fname v)).genericCalled = true) := by
  simp only [dispatchMessage, decide_eq_true_eq]
  by_cases h1 : fname = "motion" ∨ fname = "motion_and_emotion" <;>
    by_cases h2 : fname = "emotion" ∨ fname = "motion_and_emotion" <;>
      cases h.messageH <;> cases h.motionH <;> cases h.emotionH <;> cases h.functionH <;>
        simp [h1, h2]

/-- Re-running a single column-adding migration step is a no-op. -/
theorem addUserIdColumn_idem (t : Option (List String)) (n : String)
    (t' : Option (List String)) (h : addUserIdColumn t n = Except.ok t') :
    addUserIdColumn t' n = Except.ok t' := by
  unfold addUserIdColumn at h ⊢
  by_cases hm : "user_id" ∈ t.getD []
  · rw [if_pos hm] at h
    simp at h
    subst h
    rw [if_pos hm]
  · rw [if_neg hm] at h
    cases t with
    | none => simp at h
    | some cs =>
      simp at h
      subst h
      simp

/-- Migration preserves the file-existence flag and the version rows
(it only touches table columns). -/
theorem migrateDatabase_frame (f : DbFile) (c : Nat) (g : DbFile)
    (h : migrateDatabase f c = Except.ok g) :
    g.onDisk = f.onDisk ∧ g.versions = f.versions := by
  unfold migrateDatabase at h
  by_cases hc : c < 1
  · rw [if_pos hc] at h
    cases hm : addUserIdColumn f.messagesCols "messages" with
    | error e => rw [hm] at h; simp at h
    | ok mc =>
      rw [hm] at h
      cases hk : addUserIdColumn f.memoriesCols "memories" with
      | error e => rw [hk] at h; simp at h
      | ok kc =>
        rw [hk] at h
        simp at h
        subst h
        exact ⟨rfl, rfl⟩
  · rw [if_neg hc] at h
    simp at h
    subst h
    exact ⟨rfl, rfl⟩

/-- Reapplying `_migrate_database` at the same starting version is a
no-op: every step checks for prior application. -/
theorem migrateDatabase_idem (f : DbFile) (c : Nat) (g : DbFile)
    (h : migrateDatabase f c = Except.ok g) :
    migrateDatabase g c = Except.ok g := by
  unfold migrateDatabase at h ⊢
  by_cases hc : c < 1
  · rw [if_pos hc] at h ⊢
    cases hm : addUserIdColumn f.messagesCols "messages" with
    | error e => rw [hm] at h; simp at h
    | ok mc =>
      rw [hm] at h
      cases hk : addUserIdColumn f.memoriesCols "memories" with
      | error e => rw [hk] at h; simp at h
      | ok kc =>
        rw [hk] at h
        simp at h
        subst h
        have h1 := addUserIdColumn_idem f.messagesCols "messages" mc hm
        have h2 := addUserIdColumn_idem f.memoriesCols "memories" kc hk
        simp [h1, h2]
  · rw [if_neg hc] at h ⊢

/-- Structure eta for the `onDisk` update. -/
theorem dbFile_onDisk_update (f : DbFile) (h : f.onDisk = true) :
    { f with onDisk := true } = f := by
  cases f
  simp only at h
  simp [h]

/-- The stamped version after appending a version row. -/
theorem stampedVersion_append (g : DbFile) (v : Nat) :
    stampedVersion { g with versions := g.versions ++ [v] } = v := by
  simp [stampedVersion]

/-- Claim C7: after a successful store initialization, running
initialization again on the resulting database file succeeds without
error and leaves the state — in particular the stamped schema
version — unchanged; and reapplying a migration at the same version is
a no-op. -/
theorem claim_C7_initialize_idempotent (f f₁ : DbFile)
    (h : initializeDb f = Except.ok f₁) :
    initializeDb f₁ = Except.ok f₁ ∧
    (∀ (g : DbFile) (c : Nat) (g' : DbFile),
      migrateDatabase g c = Except.ok g' → migrateDatabase g' c = Except.ok g') := by
  refine ⟨?_, fun g c g' hg => migrateDatabase_idem g c g' hg⟩
  unfold initializeDb at h
  by_cases hd : f.onDisk = true
  · rw [if_neg (by simp [hd])] at h
    by_cases hv : stampedVersion { f with onDisk := true } < CURRENT_DB_VERSION
    · rw [if_pos hv] at h
      cases hm : migrateDatabase { f with onDisk := true }
          (stampedVersion { f with onDisk := true }) with
      | error e => rw [hm] at h; simp at h
      | ok g =>
        rw [hm] at h
        simp at h
        subst h
        have hod : g.onDisk = true := by
          have := (migrateDatabase_frame _ _ _ hm).1
          simpa using this
        unfold initializeDb
        rw [if_neg (by simp [hod])]
        rw [dbFile_onDisk_update _ (by simpa using hod)]
        rw [if_neg (by simp [stampedVersion_append, CURRENT_DB_VERSION])]
    · rw [if_neg hv] at h
      simp at h
      subst h
      unfold initializeDb
      rw [if_neg (by simp)]
      rw [dbFile_onDisk_update _ rfl]
      rw [if_neg hv]
  · rw [if_pos (by simp [Bool.not_eq_true] at hd ⊢; exact hd)] at h
    simp at h
    subst h
    unfold initializeDb
    rw [if_neg (by simp [createLatestSchema])]
    rw [dbFile_onDisk_update _ (by simp [createLatestSchema])]
    rw [if_neg (by simp [stampedVersion_append, CURRENT_DB_VERSION])]

/-- Witness for claim C7: initializing a fresh (absent) database file
and then re-initializing the result. -/
theorem claim_C7_initialize_idempotent_witness :
    initializeDb ⟨true, [1], some latestMessagesCols, some latestMemoriesCols⟩ =
      Except.ok ⟨true, [1], some latestMessagesCols, some latestMemoriesCols⟩ :=
  (claim_C7_initialize_idempotent ⟨false, [], none, none⟩
    ⟨true, [1], some latestMessagesCols, some latestMemoriesCols⟩ rfl).1

/-- When the previous-row query returns nothing, no row has an id
below `mid`. -/
theorem prevRow_eq_none (mid : String) (l : List Msg) (h : prevRow mid l = none) :
    ∀ x ∈ l, ¬ x.id.data < mid.data := by
  induction l with
  | nil => simp
  | cons a l ih =>
    intro x hx
    unfold prevRow at h
    by_cases ha : a.id.data < mid.data
    · rw [if_pos ha] at h
      cases hb : prevRow mid l with
      | none => rw [hb] at h; simp [laterOf] at h
      | some b =>
        rw [hb] at h
        simp only [laterOf] at h
        split at h <;> simp at h
    · rw [if_neg ha] at h
      rcases List.mem_cons.mp hx with rfl | hx
      · exact ha
      · exact ih h x hx

/-- The previous-row query returns a member row with the largest id
strictly below `mid`. -/
theorem prevRow_spec (mid : String) (l : List Msg) (r : Msg) (h : prevRow mid l = some r) :
    r ∈ l ∧ r.id.data < mid.data ∧ ∀ x ∈ l, x.id.data < mid.data → x.id.data ≤ r.id.data := by
  induction l generalizing r with
  | nil => simp [prevRow] at h
  | cons a l ih =>
    unfold prevRow at h
    by_cases ha : a.id.data < mid.data
    · rw [if_pos ha] at h
      cases hb : prevRow mid l with
      | none =>
        rw [hb] at h
        simp only [laterOf, Option.some.injEq] at h
        subst h
        refine ⟨List.mem_cons_self _ _, ha, ?_⟩
        intro x hx hlt
        rcases List.mem_cons.mp hx with rfl | hx
        · exact le_refl _
        · exact absurd hlt (prevRow_eq_none mid l hb x hx)
      | some b =>
        rw [hb] at h
        simp only [laterOf] at h
        obtain ⟨hbmem, hblt, hbmax⟩ := ih b hb
        by_cases hab : b.id.data < a.id.data
        · rw [if_pos hab] at h
          simp only [Option.some.injEq] at h
          subst h
          refine ⟨List.mem_cons_self _ _, ha, ?_⟩
          intro x hx hlt
          rcases List.mem_cons.mp hx with rfl | hx
          · exact le_refl _
          · exact le_of_lt (lt_of_le_of_lt (hbmax x hx hlt) hab)
        · rw [if_neg hab] at h
          simp only [Option.some.injEq] at h
          subst h
          refine ⟨List.mem_cons_of_mem a hbmem, hblt, ?_⟩
          intro x hx hlt
          rcases List.mem_cons.mp hx with rfl | hx
          · exact le_of_not_lt hab
          · exact hbmax x hx hlt
    · rw [if_neg ha] at h
      obtain ⟨hmem, hlt, hmax⟩ := ih r h
      refine ⟨List.mem_cons_of_mem a hmem, hlt, ?_⟩
      intro x hx hxlt
      rcases List.mem_cons.mp hx with rfl | hx
      · exact absurd hxlt ha
      · exact hmax x hx hxlt

/-- The previous-row query finds something as soon as some row's id is
below `mid`. -/
theorem prevRow_isSome (mid : String) (l : List Msg) (x : Msg) (hx : x ∈ l)
    (hlt : x.id.data < mid.data) : ∃ r, prevRow mid l = some r := by
  cases h : prevRow mid l with
  | none => exact absurd hlt (prevRow_eq_none mid l h x hx)
  | some r => exact ⟨r, rfl⟩

/-- `find?` succeeds when a satisfying element is present. -/
theorem find?_eq_some_of_mem {α : Type} (p : α → Bool) (l : List α) (x : α)
    (hx : x ∈ l) (hp : p x = true) : ∃ y, l.find? p = some y ∧ p y = true := by
  induction l with
  | nil => simp at hx
  | cons a l ih =>
    by_cases ha : p a = true
    · exact ⟨a, List.find?_cons_of_pos l ha, ha⟩
    · rcases List.mem_cons.mp hx with rfl | hx
      · exact absurd hp ha
      · obtain ⟨y, hy, hpy⟩ := ih hx
        refine ⟨y, ?_, hpy⟩
        rw [List.find?_cons_of_neg l (by simp [ha])]
        exact hy

/-- The UPDATE statement does not change any row's id. -/
theorem applyUpdateOne_id (m : Msg) (mid : String) (r : Msg) :
    (applyUpdateOne m mid r).id = r.id := by
  unfold applyUpdateOne
  split <;> rfl

/-- A row whose id is not the updated one is left unchanged. -/
theorem applyUpdateOne_of_ne (m : Msg) (mid : String) (r : Msg) (h : r.id ≠ mid) :
    applyUpdateOne m mid r = r :=
  if_neg h

/-- Claim C10: in `update_message`, when the updated user message's
normalized text equals the normalized text of the immediately
preceding row, that row is NOT deleted (the table is exactly the
UPDATE result); any row that does disappear is the immediately
preceding row, both roles are `user`, and the two normalized texts
differ while one is a (hence strict) startswith-prefix of the other;
and normalization removes at most one trailing character, drawn from
the punctuation set 。，,.?!？！. -/
theorem claim_C10_dedup_conditions (rows : List Msg) (mid : String) (m : Msg) :
    (∀ p, prevRow mid (applyUpdate m mid rows) = some p →
      normalizeForComparison m.content = normalizeForComparison p.content →
      (updateRows rows mid m).1 = applyUpdate m mid rows) ∧
    (∀ r, r ∈ applyUpdate m mid rows → r ∉ (updateRows rows mid m).1 →
      ∃ p, prevRow mid (applyUpdate m mid rows) = some p ∧ r.id = p.id ∧
        m.role = Role.user ∧ p.role = Role.user ∧
        normalizeForComparison m.content ≠ normalizeForComparison p.content ∧
        ((normalizeForComparison p.content).data.isPrefixOf
            (normalizeForComparison m.content).data ∨
         (normalizeForComparison m.content).data.isPrefixOf
            (normalizeForComparison p.content).data)) ∧
    (∀ s : String, normalizeForComparison s = s ∨
      ∃ c, c ∈ trailingPunct ∧ s = (normalizeForComparison s).push c) := by
  refine ⟨?_, ?_, ?_⟩
  · intro p hp hnorm
    unfold updateRows
    by_cases hrole : m.role = Role.user
    · rw [if_pos hrole, hp]
      simp only [dedupDelete]
      by_cases hpr : p.role = Role.user
      · rw [if_pos hpr, if_neg (by simp [hnorm])]
      · rw [if_neg hpr]
    · rw [if_neg hrole]
  · intro r hr hnr
    unfold updateRows at hnr
    by_cases hrole : m.role = Role.user
    · rw [if_pos hrole] at hnr
      cases hp : prevRow mid (applyUpdate m mid rows) with
      | none =>
        rw [hp] at hnr
        simp only [dedupDelete] at hnr
        exact absurd hr hnr
      | some p =>
        rw [hp] at hnr
        simp only [dedupDelete] at hnr
        by_cases hpr : p.role = Role.user
        · rw [if_pos hpr] at hnr
          by_cases hcond :
              ((normalizeForComparison p.content).data.isPrefixOf
                  (normalizeForComparison m.content).data ∨
               (normalizeForComparison m.content).data.isPrefixOf
                  (normalizeForComparison p.content).data) ∧
              normalizeForComparison m.content ≠ normalizeForComparison p.content
          · rw [if_pos hcond] at hnr
            have hid : r.id = p.id := by
              by_contra hne
              exact hnr (List.mem_filter.mpr ⟨hr, by simp [hne]⟩)
            exact ⟨p, rfl, hid, hrole, hpr, hcond.2, hcond.1⟩
          · rw [if_neg hcond] at hnr
            exact absurd hr hnr
        · rw [if_neg hpr] at hnr
          exact absurd hr hnr
    · rw [if_neg hrole] at hnr
      exact absurd hr hnr
  · intro s
    unfold normalizeForComparison
    cases hlast : s.data.getLast? with
    | none => exact Or.inl rfl
    | some c =>
      simp only [stripTrailing]
      by_cases hc : c ∈ trailingPunct
      · refine Or.inr ⟨c, hc, ?_⟩
        rw [if_pos hc]
        have hne : s.data ≠ [] := by
          intro hnil
          rw [hnil] at hlast
          simp at hlast
        have hdrop : s.data.dropLast ++ [c] = s.data := by
          have := List.dropLast_append_getLast hne
          rwa [List.getLast_eq_iff_getLast?_eq_some hne |>.mpr hlast] at this
        cases s with
        | mk d =>
          show String.mk d = String.mk (d.dropLast ++ [c])
          rw [hdrop]
      · rw [if_neg hc]
        exact Or.inl rfl

/-- Witness for claim C10 at a concrete store: updating the later user
message to `"hello。"` — whose normalized text equals the preceding
`"hello"` — deletes nothing. -/
theorem claim_C10_dedup_conditions_witness :
    (updateRows
        [⟨"100", Role.user, "hello", none, "nobody", "t0"⟩,
         ⟨"101", Role.user, "hi", none, "nobody", "t1"⟩] "101"
        ⟨"101", Role.user, "hello。", none, "nobody", "t2"⟩).1 =
      applyUpdate ⟨"101", Role.user, "hello。", none, "nobody", "t2"⟩ "101"
        [⟨"100", Role.user, "hello", none, "nobody", "t0"⟩,
         ⟨"101", Role.user, "hi", none, "nobody", "t1"⟩] :=
  (claim_C10_dedup_conditions
      [⟨"100", Role.user, "hello", none, "nobody", "t0"⟩,
       ⟨"101", Role.user, "hi", none, "nobody", "t1"⟩] "101"
      ⟨"101", Role.user, "hello。", none, "nobody", "t2"⟩).1
    ⟨"100", Role.user, "hello", none, "nobody", "t0"⟩ (by decide) (by decide)

/-- Claim C4: updating the user message at id `mid` to content
`"hello world"` when the immediately preceding (next-lower id) row is
a user message with content `"hello"` deletes that preceding row and
leaves the updated message with content `"hello world"`: exactly one
stored user message remains among the two ids. -/
theorem claim_C4_user_message_dedup_update (st : StoreState) (hconn : st.conn = true)
    (mid : String) (m p : Msg)
    (hp : p ∈ st.messages) (hplt : p.id.data < mid.data) (hprole : p.role = Role.user)
    (hpcontent : p.content = "hello")
    (hmax : ∀ r ∈ st.messages, r.id.data < mid.data → r.id.data < p.id.data ∨ r = p)
    (hmem : ∃ r ∈ st.messages, r.id = mid)
    (hrole : m.role = Role.user) (hcontent : m.content = "hello world") :
    getMessageS (updateMessageS st mid m).1 p.id = none ∧
    (getMessageS (updateMessageS st mid m).1 mid).map (fun r => (r.role, r.content)) =
      some (Role.user, "hello world") := by
  have hpne : p.id ≠ mid := fun h => absurd (h ▸ hplt) (lt_irrefl _)
  have hpu : p ∈ applyUpdate m mid st.messages := by
    unfold applyUpdate
    have hfix : applyUpdateOne m mid p = p := applyUpdateOne_of_ne m mid p hpne
    exact hfix ▸ List.mem_map_of_mem (applyUpdateOne m mid) hp
  obtain ⟨q, hq⟩ := prevRow_isSome mid (applyUpdate m mid st.messages) p hpu hplt
  obtain ⟨hqmem, hqlt, hqmax⟩ := prevRow_spec mid (applyUpdate m mid st.messages) q hq
  obtain ⟨r₀, hr₀, hqr₀⟩ := List.mem_map.mp hqmem
  have hqid : q.id = r₀.id := by rw [← hqr₀]; exact applyUpdateOne_id m mid r₀
  have hqidd : q.id.data = r₀.id.data := congrArg String.data hqid
  have hr₀lt : r₀.id.data < mid.data := by rw [← hqid]; exact hqlt
  have hple : p.id.data ≤ q.id.data := hqmax p hpu hplt
  have hr₀p : r₀ = p := by
    rcases hmax r₀ hr₀ hr₀lt with hlt | heq
    · exact absurd (lt_of_le_of_lt hple (hqidd ▸ hlt)) (lt_irrefl _)
    · exact heq
  have hqp : q = p := by
    rw [← hqr₀, hr₀p]
    exact applyUpdateOne_of_ne m mid p hpne
  rw [hqp] at hq
  have hrows : (updateRows st.messages mid m).1 =
      (applyUpdate m mid st.messages).filter (fun r => r.id ≠ p.id) := by
    unfold updateRows
    rw [if_pos hrole, hq]
    simp only [dedupDelete]
    rw [if_pos hprole, if_pos (by rw [hcontent, hpcontent]; decide)]
  have hstore : (updateMessageS st mid m).1 =
      { st with messages := (updateRows st.messages mid m).1 } := by
    unfold updateMessageS
    rw [if_pos hconn]
  constructor
  · rw [hstore]
    simp only [getMessageS, hconn, if_true, findRowById]
    apply List.find?_eq_none.mpr
    intro x hx
    rw [hrows] at hx
    have := (List.mem_filter.mp hx).2
    simpa using this
  · obtain ⟨r₁, hr₁, hr₁id⟩ := hmem
    have hr₁u : applyUpdateOne m mid r₁ ∈ applyUpdate m mid st.messages :=
      List.mem_map_of_mem (applyUpdateOne m mid) hr₁
    have hr₁uid : (applyUpdateOne m mid r₁).id = mid := by
      rw [applyUpdateOne_id]; exact hr₁id
    have hr₁f : applyUpdateOne m mid r₁ ∈ (updateRows st.messages mid m).1 := by
      rw [hrows]
      exact List.mem_filter.mpr ⟨hr₁u, by simp [hr₁uid, Ne.symm hpne]⟩
    obtain ⟨y, hy, hpy⟩ := find?_eq_some_of_mem (fun r => r.id = mid)
      (updateRows st.messages mid m).1 (applyUpdateOne m mid r₁) hr₁f (by simp [hr₁uid])
    rw [hstore]
    simp only [getMessageS, hconn, if_true, findRowById]
    rw [hy]
    have hymem : y ∈ (updateRows st.messages mid m).1 := List.mem_of_find?_eq_some hy
    rw [hrows] at hymem
    obtain ⟨r₂, _, hyr₂⟩ := List.mem_map.mp (List.mem_filter.mp hymem).1
    have hyid : y.id = mid := by simpa using hpy
    have hr₂id : r₂.id = mid := by rw [← applyUpdateOne_id m mid r₂, hyr₂]; exact hyid
    have hyval : y = applyUpdateOne m mid r₂ := hyr₂.symm
    rw [hyval]
    unfold applyUpdateOne
    rw [if_pos hr₂id]
    simp [hrole, hcontent]

/-- Witness for claim C4 at a concrete two-row store. -/
theorem claim_C4_user_message_dedup_update_witness :
    getMessageS (updateMessageS
        ⟨true,
         [⟨"100", Role.user, "hello", none, "nobody", "t0"⟩,
          ⟨"101", Role.user, "", some "A", "nobody", "t1"⟩], []⟩ "101"
        ⟨"101", Role.user, "hello world", some "A", "nobody", "t2"⟩).1 "100" = none ∧
    (getMessageS (updateMessageS
        ⟨true,
         [⟨"100", Role.user, "hello", none, "nobody", "t0"⟩,
          ⟨"101", Role.user, "", some "A", "nobody", "t1"⟩], []⟩ "101"
        ⟨"101", Role.user, "hello world", some "A", "nobody", "t2"⟩).1 "101").map
      (fun r => (r.role, r.content)) = some (Role.user, "hello world") :=
  claim_C4_user_message_dedup_update
    ⟨true,
     [⟨"100", Role.user, "hello", none, "nobody", "t0"⟩,
      ⟨"101", Role.user, "", some "A", "nobody", "t1"⟩], []⟩ rfl "101"
    ⟨"101", Role.user, "hello world", some "A", "nobody", "t2"⟩
    ⟨"100", Role.user, "hello", none, "nobody", "t0"⟩
    (by decide) (by decide) rfl rfl (by decide)
    ⟨⟨"101", Role.user, "", some "A", "nobody", "t1"⟩, by decide, rfl⟩ rfl rfl

/-! ## The memory-trigger counter -/

/-- With `text_message` unset the counter block does nothing. -/
theorem counterStep_false (st : ClientState) (env : Envelope) :
    counterStep st env false = ⟨st, false, false⟩ := by
  unfold counterStep
  rw [if_neg (by simp)]

/-- With `text_message` set but client-side memory generation
disabled, the counter block does nothing. -/
theorem counterStep_true_off (st : ClientState) (env : Envelope)
    (hni : isItemCreated env = false) (hm : st.memoryGen = false) :
    counterStep st env true = ⟨st, true, false⟩ := by
  unfold counterStep
  rw [if_pos ⟨rfl, by simp [hni]⟩, if_neg (by simp [hm])]

/-- With `text_message` set, memory generation enabled and the
threshold reached, the counter resets and the background task is
launched. -/
theorem counterStep_true_fire (st : ClientState) (env : Envelope)
    (hni : isItemCreated env = false) (hm : st.memoryGen = true)
    (hth : (st.counter + 1) * 2 ≥ st.contextRounds) :
    counterStep st env true = ⟨{ st with counter := 0 }, true, true⟩ := by
  unfold counterStep
  rw [if_pos ⟨rfl, by simp [hni]⟩, if_pos hm, if_pos hth]

/-- With `text_message` set, memory generation enabled and the
threshold not yet reached, the counter just increments. -/
theorem counterStep_true_noFire (st : ClientState) (env : Envelope)
    (hni : isItemCreated env = false) (hm : st.memoryGen = true)
    (hth : ¬ (st.counter + 1) * 2 ≥ st.contextRounds) :
    counterStep st env true = ⟨{ st with counter := st.counter + 1 }, true, false⟩ := by
  unfold counterStep
  rw [if_pos ⟨rfl, by simp [hni]⟩, if_pos hm, if_neg hth]

/-- Full behaviour of the counter block as a function of the
`text_message` flag. -/
theorem counterStep_behavior (st : ClientState) (env : Envelope) (t : Bool)
    (hni : isItemCreated env = false) :
    ((counterStep st env t).textMessage = t) ∧
    (t = true → st.memoryGen = true →
      if (st.counter + 1) * 2 ≥ st.contextRounds
      then (counterStep st env t).state.counter = 0 ∧
           (counterStep st env t).launchedMemGen = true
      else (counterStep st env t).state.counter = st.counter + 1 ∧
           (counterStep st env t).launchedMemGen = false) ∧
    (t = true → st.memoryGen = false →
      (counterStep st env t).state.counter = st.counter ∧
      (counterStep st env t).launchedMemGen = false) ∧
    (t = false →
      (counterStep st env t).state.counter = st.counter ∧
      (counterStep st env t).launchedMemGen = false) := by
  cases t with
  | false =>
    rw [counterStep_false]
    exact ⟨rfl, by simp, by simp, fun _ => ⟨rfl, rfl⟩⟩
  | true =>
    cases hm : st.memoryGen with
    | false =>
      rw [counterStep_true_off st env hni hm]
      exact ⟨rfl, by simp [hm], fun _ _ => ⟨rfl, rfl⟩, by simp⟩
    | true =>
      by_cases hth : (st.counter + 1) * 2 ≥ st.contextRounds
      · rw [counterStep_true_fire st env hni hm hth]
        refine ⟨rfl, fun _ _ => ?_, by simp [hm], by simp⟩
        rw [if_pos hth]
        exact ⟨rfl, rfl⟩
      · rw [counterStep_true_noFire st env hni hm hth]
        refine ⟨rfl, fun _ _ => ?_, by simp [hm], by simp⟩
        rw [if_neg hth]
        exact ⟨rfl, rfl⟩

/-- Spec-side (amended claim C3) characterization of "an assistant
turn was flushed by the reassembler while handling this envelope":
either a `response.done` arrives while the cache holds a draft, or a
non-empty transcript delta arrives for a different item than the
cached one. -/
def specAssistantTurnFlushed (st : ClientState) (env : Envelope) : Prop :=
  (env = Envelope.responseDone ∧ optTruthy st.cache.itemId = true ∧
    st.cache.message.isSome = true) ∨
  (∃ i d, env = Envelope.audioTranscriptDelta i d ∧ d ≠ "" ∧ i ≠ "" ∧
    optTruthy st.cache.itemId = true ∧ st.cache.itemId ≠ some i)

/-- The full behaviour claimed (as amended) for the memory-trigger
counter on one handled envelope. -/
def memoryTriggerSpec (st : ClientState) (ev : Event) : Prop :=
  ((processEvent st ev).textMessage = true ↔ specAssistantTurnFlushed st ev.env) ∧
  ((processEvent st ev).textMessage = true → st.memoryGen = true →
    if (st.counter + 1) * 2 ≥ st.contextRounds
    then (processEvent st ev).state.counter = 0 ∧
         (processEvent st ev).launchedMemGen = true
    else (processEvent st ev).state.counter = st.counter + 1 ∧
         (processEvent st ev).launchedMemGen = false) ∧
  ((processEvent st ev).textMessage = true → st.memoryGen = false →
    (processEvent st ev).state.counter = st.counter ∧
    (processEvent st ev).launchedMemGen = false) ∧
  ((processEvent st ev).textMessage = false →
    (processEvent st ev).state.counter = st.counter ∧
    (processEvent st ev).launchedMemGen = false)

/-- A step that ends in the counter block with `text_message` unset
satisfies the trigger specification provided no flush was claimed. -/
theorem c3_of_noflush (st : ClientState) (ev : Event) (st' : ClientState)
    (hred : processEvent st ev = ⟨st', false, false⟩)
    (hcnt : st'.counter = st.counter)
    (hnospec : ¬ specAssistantTurnFlushed st ev.env) :
    memoryTriggerSpec st ev := by
  unfold memoryTriggerSpec
  rw [hred]
  exact ⟨by simp [hnospec], by simp, by simp, fun _ => ⟨hcnt, rfl⟩⟩

/-- A step that ends in the counter block with `text_message` set
satisfies the trigger specification provided a flush did happen. -/
theorem c3_of_flush (st : ClientState) (ev : Event) (st' : ClientState)
    (hred : processEvent st ev = counterStep st' ev.env true)
    (hcnt : st'.counter = st.counter) (hmem : st'.memoryGen = st.memoryGen)
    (hcr : st'.contextRounds = st.contextRounds)
    (hni : isItemCreated ev.env = false)
    (hspec : specAssistantTurnFlushed st ev.env) :
    memoryTriggerSpec st ev := by
  obtain ⟨h1, h2, h3, h4⟩ := counterStep_behavior st' ev.env true hni
  unfold memoryTriggerSpec
  rw [hred]
  refine ⟨by simp [h1, hspec], ?_, ?_, ?_⟩
  · intro _ hm
    have hb := h2 rfl (by rw [hmem]; exact hm)
    rw [hcnt, hcr] at hb
    exact hb
  · intro _ hm
    have hb := h3 rfl (by rw [hmem]; exact hm)
    rw [hcnt] at hb
    exact hb
  · intro hf
    simp [h1] at hf

/-! ## Single-step reductions of `processEvent` -/

/-- The cache left by `_save_cached_audio_transcript` is either reset
or untouched. -/
theorem saveCached_snd_cases (db : StoreState) (c : Cache) :
    (saveCachedAudioTranscript db c).2 = emptyCache ∨
    (saveCachedAudioTranscript db c).2 = c := by
  obtain ⟨ci, cm, cc⟩ := c
  cases cm with
  | none => exact Or.inr rfl
  | some m =>
    by_cases hc : cc ≠ ""
    · left
      simp only [saveCachedAudioTranscript]
      rw [if_pos hc]
    · right
      simp only [saveCachedAudioTranscript]
      rw [if_neg hc]

/-- Step reduction: `conversation.item.created` with pending user
audio persists a placeholder message and leaves the counter alone. -/
theorem processEvent_itemCreated (st : ClientState) (i : Option String) (t : Nat) (n : String) :
    processEvent st ⟨Envelope.itemCreatedUserAudio i, t, n⟩ =
      ⟨{ st with
          db := (saveMessageS st.db
            ⟨toString (genMessageId t st.lastId), Role.user, "", i, "nobody", n⟩).1,
          lastId := genMessageId t st.lastId }, false, false⟩ := by
  simp only [processEvent]
  rw [counterStep_false]

/-- Step reduction: a transcription completion with a non-empty
item id applies the transcript update. -/
theorem processEvent_transcription (st : ClientState) (i tr : String) (t : Nat) (n : String)
    (hi : i ≠ "") :
    processEvent st ⟨Envelope.transcriptionCompleted i tr, t, n⟩ =
      ⟨applyTranscript st tr (getMessageByItemIdS st.db i), false, false⟩ := by
  simp only [processEvent]
  rw [if_pos hi, counterStep_false]

/-- Step reduction: a transcription completion with a falsy item id is
dropped. -/
theorem processEvent_transcription_skip (st : ClientState) (i tr : String) (t : Nat)
    (n : String) (hi : ¬ i ≠ "") :
    processEvent st ⟨Envelope.transcriptionCompleted i tr, t, n⟩ = ⟨st, false, false⟩ := by
  simp only [processEvent]
  rw [if_neg hi, counterStep_false]

/-- Step reduction: `response.done` with a cached draft flushes it and
runs the counter block with `text_message` set. -/
theorem processEvent_responseDone_flush (st : ClientState) (t : Nat) (n : String)
    (hc : optTruthy st.cache.itemId = true ∧ st.cache.message.isSome = true) :
    processEvent st ⟨Envelope.responseDone, t, n⟩ =
      counterStep
        { st with db := (saveCachedAudioTranscript st.db st.cache).1,
                  cache := (saveCachedAudioTranscript st.db st.cache).2 }
        Envelope.responseDone true := by
  simp only [processEvent]
  rw [if_pos hc]

/-- Step reduction: `response.done` with no cached draft does
nothing. -/
theorem processEvent_responseDone_noflush (st : ClientState) (t : Nat) (n : String)
    (hc : ¬ (optTruthy st.cache.itemId = true ∧ st.cache.message.isSome = true)) :
    processEvent st ⟨Envelope.responseDone, t, n⟩ = ⟨st, false, false⟩ := by
  simp only [processEvent]
  rw [if_neg hc, counterStep_false]

/-- Step reduction: a first transcript delta for an item (no cached
draft, or a cached draft that does not match but is not flushable as a
different truthy item) starts a fresh draft. -/
theorem processEvent_delta_noflush_create (st : ClientState) (i d : String) (t : Nat)
    (n : String) (hd : d ≠ "") (hi : i ≠ "")
    (hsw : ¬ (optTruthy st.cache.itemId = true ∧ st.cache.itemId ≠ some i))
    (hin : ¬ optTruthy st.cache.itemId = true ∨ st.cache.itemId ≠ some i) :
    processEvent st ⟨Envelope.audioTranscriptDelta i d, t, n⟩ =
      ⟨{ st with
          cache := ⟨some i,
            some ⟨toString (genMessageId t st.lastId), Role.assistant, "", some i,
              "nobody", n⟩, d⟩,
          lastId := genMessageId t st.lastId }, false, false⟩ := by
  simp only [processEvent]
  rw [if_pos ⟨hd, hi⟩, if_neg hsw, if_neg hsw, if_pos hin, counterStep_false]

/-- Step reduction: a transcript delta for the item already cached
appends to the accumulated text. -/
theorem processEvent_delta_append (st : ClientState) (i d : String) (t : Nat) (n : String)
    (hd : d ≠ "") (hi : i ≠ "") (hmatch : st.cache.itemId = some i) :
    processEvent st ⟨Envelope.audioTranscriptDelta i d, t, n⟩ =
      ⟨{ st with cache := { st.cache with content := st.cache.content ++ d } },
        false, false⟩ := by
  have htr : optTruthy st.cache.itemId = true := by
    rw [hmatch]
    simpa [optTruthy] using hi
  have hC : ¬ (optTruthy st.cache.itemId = true ∧ st.cache.itemId ≠ some i) :=
    fun h => h.2 hmatch
  have hI : ¬ (¬ optTruthy st.cache.itemId = true ∨ st.cache.itemId ≠ some i) :=
    fun h => h.elim (fun hno => hno htr) (fun hne => hne hmatch)
  simp only [processEvent]
  rw [if_pos ⟨hd, hi⟩, if_neg hC, if_neg hC, if_neg hI, counterStep_false]

/-- Step reduction: a transcript delta for a different item than the
cached one flushes the cache and starts a fresh draft, with
`text_message` set. -/
theorem processEvent_delta_switch_create (st : ClientState) (i d : String) (t : Nat)
    (n : String) (hd : d ≠ "") (hi : i ≠ "")
    (hsw : optTruthy st.cache.itemId = true ∧ st.cache.itemId ≠ some i)
    (hin : ¬ optTruthy (saveCachedAudioTranscript st.db st.cache).2.itemId = true ∨
      (saveCachedAudioTranscript st.db st.cache).2.itemId ≠ some i) :
    processEvent st ⟨Envelope.audioTranscriptDelta i d, t, n⟩ =
      counterStep
        { st with
          db := (saveCachedAudioTranscript st.db st.cache).1,
          cache := ⟨some i,
            some ⟨toString (genMessageId t st.lastId), Role.assistant, "", some i,
              "nobody", n⟩, d⟩,
          lastId := genMessageId t st.lastId }
        (Envelope.audioTranscriptDelta i d) true := by
  simp only [processEvent]
  rw [if_pos ⟨hd, hi⟩, if_pos hsw, if_pos hsw, if_pos hin]

/-- Step reduction: a transcript delta with empty text or a falsy item
id is ignored. -/
theorem processEvent_delta_skip (st : ClientState) (i d : String) (t : Nat) (n : String)
    (hdi : ¬ (d ≠ "" ∧ i ≠ "")) :
    processEvent st ⟨Envelope.audioTranscriptDelta i d, t, n⟩ = ⟨st, false, false⟩ := by
  simp only [processEvent]
  rw [if_neg hdi, counterStep_false]

/-- Step reduction: `conversation.created` has no storage effect. -/
theorem processEvent_conversationCreated (st : ClientState) (t : Nat) (n : String) :
    processEvent st ⟨Envelope.conversationCreated, t, n⟩ = ⟨st, false, false⟩ := by
  simp only [processEvent]
  rw [counterStep_false]

/-- Step reduction: a function-call completion has no storage
effect. -/
theorem processEvent_functionCall (st : ClientState) (fname : String) (v : Bool) (t : Nat)
    (n : String) :
    processEvent st ⟨Envelope.outputItemDoneFunctionCall fname v, t, n⟩ =
      ⟨st, false, false⟩ := by
  simp only [processEvent]
  rw [counterStep_false]

/-- Step reduction: unrecognized envelopes have no storage effect. -/
theorem processEvent_other (st : ClientState) (t : Nat) (n : String) :
    processEvent st ⟨Envelope.other, t, n⟩ = ⟨st, false, false⟩ := by
  simp only [processEvent]
  rw [counterStep_false]

/-- Claim C3 (amended): the memory-trigger counter is incremented
exactly once per assistant turn flushed by the reassembler — on a
`response.done` flush or an item-switch flush — and only when
client-side memory generation is enabled; it is never incremented for
a bare `conversation.item.created` placeholder nor for a completed
user transcription; when after the increment `counter * 2 >=
context_window_size`, the counter resets to zero and the detached
background memory-generation task is launched. -/
theorem claim_C3_memory_trigger (st : ClientState) (ev : Event) :
    memoryTriggerSpec st ev := by
  obtain ⟨env, t, n⟩ := ev
  cases env with
  | itemCreatedUserAudio i =>
    exact c3_of_noflush st _ _ (processEvent_itemCreated st i t n) rfl
      (by rintro (⟨heq, _⟩ | ⟨i', d', heq, _⟩) <;> simp at heq)
  | transcriptionCompleted i tr =>
    by_cases hi : i ≠ ""
    · exact c3_of_noflush st _ _ (processEvent_transcription st i tr t n hi)
        (by cases getMessageByItemIdS st.db i <;> simp [applyTranscript])
        (by rintro (⟨heq, _⟩ | ⟨i', d', heq, _⟩) <;> simp at heq)
    · exact c3_of_noflush st _ st (processEvent_transcription_skip st i tr t n hi) rfl
        (by rintro (⟨heq, _⟩ | ⟨i', d', heq, _⟩) <;> simp at heq)
  | responseDone =>
    by_cases hc : optTruthy st.cache.itemId = true ∧ st.cache.message.isSome = true
    · exact c3_of_flush st _ _ (processEvent_responseDone_flush st t n hc) rfl rfl rfl rfl
        (Or.inl ⟨rfl, hc.1, hc.2⟩)
    · exact c3_of_noflush st _ st (processEvent_responseDone_noflush st t n hc) rfl
        (by
          rintro (⟨_, h1, h2⟩ | ⟨i', d', heq, _⟩)
          · exact hc ⟨h1, h2⟩
          · simp at heq)
  | audioTranscriptDelta i d =>
    by_cases hdi : d ≠ "" ∧ i ≠ ""
    · by_cases hsw : optTruthy st.cache.itemId = true ∧ st.cache.itemId ≠ some i
      · by_cases hin : ¬ optTruthy (saveCachedAudioTranscript st.db st.cache).2.itemId = true ∨
            (saveCachedAudioTranscript st.db st.cache).2.itemId ≠ some i
        · exact c3_of_flush st _ _
            (processEvent_delta_switch_create st i d t n hdi.1 hdi.2 hsw hin)
            rfl rfl rfl rfl
            (Or.inr ⟨i, d, rfl, hdi.1, hdi.2, hsw.1, hsw.2⟩)
        · exfalso
          rcases saveCached_snd_cases st.db st.cache with hsc | hsc
          · exact hin (by rw [hsc]; left; simp [emptyCache, optTruthy])
          · exact hin (by rw [hsc]; right; exact hsw.2)
      · by_cases hin : ¬ optTruthy st.cache.itemId = true ∨ st.cache.itemId ≠ some i
        · exact c3_of_noflush st _ _
            (processEvent_delta_noflush_create st i d t n hdi.1 hdi.2 hsw hin) rfl
            (by
              rintro (⟨heq, _⟩ | ⟨i', d', heq, _, _, hT, hne⟩)
              · simp at heq
              · simp only [Envelope.audioTranscriptDelta.injEq] at heq
                exact hsw ⟨hT, fun hm => hne (heq.1 ▸ hm)⟩)
        · have hmatch : st.cache.itemId = some i := by
            by_contra hne
            exact hin (Or.inr hne)
          exact c3_of_noflush st _ _
            (processEvent_delta_append st i d t n hdi.1 hdi.2 hmatch) rfl
            (by
              rintro (⟨heq, _⟩ | ⟨i', d', heq, _, _, hT, hne⟩)
              · simp at heq
              · simp only [Envelope.audioTranscriptDelta.injEq] at heq
                exact hsw ⟨hT, fun hm => hne (heq.1 ▸ hm)⟩)
    · exact c3_of_noflush st _ st (processEvent_delta_skip st i d t n hdi) rfl
        (by
          rintro (⟨heq, _⟩ | ⟨i', d', heq, hd', hi', _⟩)
          · simp at heq
          · simp only [Envelope.audioTranscriptDelta.injEq] at heq
            exact hdi ⟨heq.2 ▸ hd', heq.1 ▸ hi'⟩)
  | conversationCreated =>
    exact c3_of_noflush st _ st (processEvent_conversationCreated st t n) rfl
      (by rintro (⟨heq, _⟩ | ⟨i', d', heq, _⟩) <;> simp at heq)
  | outputItemDoneFunctionCall fname v =>
    exact c3_of_noflush st _ st (processEvent_functionCall st fname v t n) rfl
      (by rintro (⟨heq, _⟩ | ⟨i', d', heq, _⟩) <;> simp at heq)
  | other =>
    exact c3_of_noflush st _ st (processEvent_other st t n) rfl
      (by rintro (⟨heq, _⟩ | ⟨i', d', heq, _⟩) <;> simp at heq)

/-- Claim C3 counterexample: a completed user transcription — which
the claim says increments the memory-trigger counter — leaves the
counter at zero and launches no background work, even with client-side
memory generation enabled. -/
theorem claim_C3_counterexample :
    (processEvent
      ⟨⟨true, [⟨"100", Role.user, "", some "A", "nobody", "d0"⟩], []⟩,
       emptyCache, 0, 100, 10, true⟩
      ⟨Envelope.transcriptionCompleted "A" "hi there", 200, "d1"⟩).state.counter = 0 ∧
    (processEvent
      ⟨⟨true, [⟨"100", Role.user, "", some "A", "nobody", "d0"⟩], []⟩,
       emptyCache, 0, 100, 10, true⟩
      ⟨Envelope.transcriptionCompleted "A" "hi there", 200, "d1"⟩).launchedMemGen = false := by
  decide

/-- Witness for claim C3 at a concrete flush: a `response.done` with a
cached assistant draft increments the counter (threshold not yet
reached, so no reset and no launch). -/
theorem claim_C3_memory_trigger_witness :
    (processEvent
      ⟨⟨true, [], []⟩,
       ⟨some "A", some ⟨"100", Role.assistant, "", some "A", "nobody", "d0"⟩, "Hel"⟩,
       0, 100, 10, true⟩
      ⟨Envelope.responseDone, 200, "d1"⟩).state.counter = 1 ∧
    (processEvent
      ⟨⟨true, [], []⟩,
       ⟨some "A", some ⟨"100", Role.assistant, "", some "A", "nobody", "d0"⟩, "Hel"⟩,
       0, 100, 10, true⟩
      ⟨Envelope.responseDone, 200, "d1"⟩).launchedMemGen = false := by
  have h := claim_C3_memory_trigger
    ⟨⟨true, [], []⟩,
     ⟨some "A", some ⟨"100", Role.assistant, "", some "A", "nobody", "d0"⟩, "Hel"⟩,
     0, 100, 10, true⟩
    ⟨Envelope.responseDone, 200, "d1"⟩
  have ht := h.1.mpr (Or.inl ⟨rfl, rfl, rfl⟩)
  have h2 := h.2.1 ht rfl
  rw [if_neg (by decide)] at h2
  exact h2

/-! ## Reassembly round trips (claims C1 and C2) -/

/-- The counter block never touches the store. -/
theorem counterStep_state_db (st : ClientState) (env : Envelope) (t : Bool) :
    (counterStep st env t).state.db = st.db := by
  unfold counterStep
  split
  · split
    · split <;> rfl
    · rfl
  · rfl

/-- The counter block never touches the transcript cache. -/
theorem counterStep_state_cache (st : ClientState) (env : Envelope) (t : Bool) :
    (counterStep st env t).state.cache = st.cache := by
  unfold counterStep
  split
  · split
    · split <;> rfl
    · rfl
  · rfl

/-- Flushing a cache that holds a draft with non-empty accumulated
text persists the draft with that text and resets the cache. -/
theorem saveCached_flush (db : StoreState) (ci : Option String) (m : Msg) (c : String)
    (hc : c ≠ "") :
    saveCachedAudioTranscript db ⟨ci, some m, c⟩ =
      ((saveMessageS db { m with content := c }).1, emptyCache) := by
  simp only [saveCachedAudioTranscript]
  rw [if_pos hc]

/-- On an initialized store the upsert just rewrites the rows. -/
theorem saveMessageS_fst (db : StoreState) (m : Msg) (h : db.conn = true) :
    (saveMessageS db m).1 = { db with messages := saveRow db.messages m } := by
  simp [saveMessageS, h]

/-- After an upsert of a message for item `"A"` into a store free of
item-`"A"` rows, that message is the only item-`"A"` row. -/
theorem filter_map_saveRow {β : Type} (f : Msg → β) (S : List Msg) (m : Msg)
    (hS : ∀ r ∈ S, r.item_id ≠ some "A") (hm : m.item_id = some "A") :
    ((saveRow S m).filter (fun r => r.item_id = some "A")).map f = [f m] := by
  unfold saveRow
  rw [List.filter_append]
  have h1 : (S.filter (fun r => r.id ≠ m.id)).filter (fun r => r.item_id = some "A") = [] := by
    apply List.filter_eq_nil_iff.mpr
    intro a ha
    simpa using hS a (List.mem_of_mem_filter ha)
  rw [h1]
  simp [hm]

/-- Claim C1: handling assistant transcript deltas `"Hel"` then `"lo"`
for item `"A"` followed by a `response.done` terminator persists
exactly one assistant message for item `"A"`, whose content is
`"Hello"`, the concatenation of the deltas in arrival order. -/
theorem claim_C1_reassembly (st : ClientState) (hconn : st.db.conn = true)
    (hcache : st.cache = emptyCache)
    (hnoA : ∀ r ∈ st.db.messages, r.item_id ≠ some "A")
    (t₁ t₂ t₃ : Nat) (n₁ n₂ n₃ : String) :
    (((processEvents st
        [⟨Envelope.audioTranscriptDelta "A" "Hel", t₁, n₁⟩,
         ⟨Envelope.audioTranscriptDelta "A" "lo", t₂, n₂⟩,
         ⟨Envelope.responseDone, t₃, n₃⟩]).db.messages.filter
        (fun r => r.item_id = some "A")).map (fun r => (r.role, r.content))) =
      [(Role.assistant, "Hello")] := by
  have hnone : st.cache.itemId = none := by rw [hcache]; rfl
  have hsw : ¬ (optTruthy st.cache.itemId = true ∧ st.cache.itemId ≠ some "A") := by
    rw [hnone]
    rintro ⟨h, _⟩
    simp [optTruthy] at h
  have hin : ¬ optTruthy st.cache.itemId = true ∨ st.cache.itemId ≠ some "A" := by
    rw [hnone]
    left
    simp [optTruthy]
  have h1 := processEvent_delta_noflush_create st "A" "Hel" t₁ n₁ (by decide) (by decide)
    hsw hin
  have h2 := processEvent_delta_append
    { st with
      cache := ⟨some "A",
        some ⟨toString (genMessageId t₁ st.lastId), Role.assistant, "", some "A",
          "nobody", n₁⟩, "Hel"⟩,
      lastId := genMessageId t₁ st.lastId }
    "A" "lo" t₂ n₂ (by decide) (by decide) rfl
  have h3 := processEvent_responseDone_flush
    { st with
      cache := ⟨some "A",
        some ⟨toString (genMessageId t₁ st.lastId), Role.assistant, "", some "A",
          "nobody", n₁⟩, "Hel" ++ "lo"⟩,
      lastId := genMessageId t₁ st.lastId }
    t₃ n₃ ⟨rfl, rfl⟩
  simp only [processEvents, List.foldl_cons, List.foldl_nil]
  rw [h1]
  dsimp only
  rw [h2]
  dsimp only
  rw [h3, counterStep_state_db]
  dsimp only
  rw [saveCached_flush st.db (some "A") _ _ (by decide)]
  dsimp only
  rw [saveMessageS_fst st.db _ hconn]
  dsimp only
  rw [filter_map_saveRow _ _ _ hnoA rfl]
  rfl

/-- Witness for claim C1 at a concrete client state. -/
theorem claim_C1_reassembly_witness :
    (((processEvents ⟨⟨true, [], []⟩, emptyCache, 0, 0, 10, true⟩
        [⟨Envelope.audioTranscriptDelta "A" "Hel", 100, "d1"⟩,
         ⟨Envelope.audioTranscriptDelta "A" "lo", 101, "d2"⟩,
         ⟨Envelope.responseDone, 102, "d3"⟩]).db.messages.filter
        (fun r => r.item_id = some "A")).map (fun r => (r.role, r.content))) =
      [(Role.assistant, "Hello")] :=
  claim_C1_reassembly ⟨⟨true, [], []⟩, emptyCache, 0, 0, 10, true⟩ rfl rfl
    (by simp) 100 101 102 "d1" "d2" "d3"

/-- The delta text carried by an envelope (empty for non-delta
envelopes). -/
def deltaText : Envelope → String
  | Envelope.audioTranscriptDelta _ d => d
  | _ => ""

/-- The concatenation, in arrival order, of the delta texts of a
sequence of events. -/
def deltasConcat (evs : List Event) : String :=
  evs.foldr (fun e acc => deltaText e.env ++ acc) ""

/-- Unfolding one handled envelope from the front of a sequence. -/
theorem processEvents_cons (st : ClientState) (e : Event) (evs : List Event) :
    processEvents st (e :: evs) = processEvents (processEvent st e).state evs := rfl

/-- Splitting a sequence of handled envelopes. -/
theorem processEvents_append (st : ClientState) (xs ys : List Event) :
    processEvents st (xs ++ ys) = processEvents (processEvents st xs) ys := by
  simp [processEvents, List.foldl_append]

/-- Appending to a non-empty string stays non-empty. -/
theorem append_left_ne_empty (a b : String) (ha : a ≠ "") : a ++ b ≠ "" := by
  intro he
  apply ha
  have hd := congrArg String.data he
  rw [String.data_append] at hd
  have hnil : a.data = [] := (List.append_eq_nil.mp hd).1
  exact String.ext hnil

/-- A run of non-empty transcript deltas for the item already cached
only extends the accumulated text; the store, the draft and everything
else are untouched. -/
theorem processEvents_append_run (i : String) (hi : i ≠ "") (evs : List Event) :
    (∀ e ∈ evs, ∃ d, e.env = Envelope.audioTranscriptDelta i d ∧ d ≠ "") →
    ∀ st : ClientState, st.cache.itemId = some i →
    processEvents st evs =
      { st with cache :=
          { st.cache with content := st.cache.content ++ deltasConcat evs } } := by
  induction evs with
  | nil =>
    intro _ st hst
    show st = _
    rw [show st.cache.content ++ deltasConcat [] = st.cache.content from by
      simp [deltasConcat]]
  | cons e evs ih =>
    intro hA st hst
    obtain ⟨d, henv, hd⟩ := hA e (List.mem_cons_self _ _)
    obtain ⟨env, t, n⟩ := e
    simp only at henv
    subst henv
    rw [processEvents_cons, processEvent_delta_append st i d t n hd hi hst]
    dsimp only
    rw [ih (fun e' he' => hA e' (List.mem_cons_of_mem _ he'))
      { st with cache := { st.cache with content := st.cache.content ++ d } } hst]
    dsimp only
    rw [String.append_assoc]
    simp only [deltasConcat, List.foldr_cons, deltaText]

/-- Claim C2: non-empty assistant transcript deltas for item `"A"`
followed immediately by a non-empty delta for a different item `b`
(no terminator in between) flush the accumulated `"A"` draft to the
store before any `b` text is accumulated: afterwards exactly one
stored message carries item `"A"`, an assistant message whose content
is the concatenation of the `"A"` deltas, while the pending cache
holds a distinct fresh draft for item `b` whose accumulated text is
just the `b` delta — two distinct messages, one per item id. -/
theorem claim_C2_flush_on_switch (st : ClientState) (hconn : st.db.conn = true)
    (hcache : st.cache = emptyCache)
    (hnoA : ∀ r ∈ st.db.messages, r.item_id ≠ some "A")
    (d₁ : String) (hd₁ : d₁ ≠ "") (t₁ : Nat) (n₁ : String) (evs : List Event)
    (hA : ∀ e ∈ evs, ∃ d, e.env = Envelope.audioTranscriptDelta "A" d ∧ d ≠ "")
    (b d' : String) (hb : b ≠ "A") (hbne : b ≠ "") (hd' : d' ≠ "") (tB : Nat) (nB : String) :
    (((processEvents st
        ((⟨Envelope.audioTranscriptDelta "A" d₁, t₁, n₁⟩ :: evs) ++
          [⟨Envelope.audioTranscriptDelta b d', tB, nB⟩])).db.messages.filter
        (fun r => r.item_id = some "A")).map (fun r => (r.role, r.content, r.item_id))) =
      [(Role.assistant,
        deltasConcat (⟨Envelope.audioTranscriptDelta "A" d₁, t₁, n₁⟩ :: evs), some "A")] ∧
    (processEvents st
        ((⟨Envelope.audioTranscriptDelta "A" d₁, t₁, n₁⟩ :: evs) ++
          [⟨Envelope.audioTranscriptDelta b d', tB, nB⟩])).cache.itemId = some b ∧
    ((processEvents st
        ((⟨Envelope.audioTranscriptDelta "A" d₁, t₁, n₁⟩ :: evs) ++
          [⟨Envelope.audioTranscriptDelta b d', tB, nB⟩])).cache.message.map
        (fun m => (m.role, m.content, m.item_id))) =
      some (Role.assistant, "", some b) ∧
    (processEvents st
        ((⟨Envelope.audioTranscriptDelta "A" d₁, t₁, n₁⟩ :: evs) ++
          [⟨Envelope.audioTranscriptDelta b d', tB, nB⟩])).cache.content = d' := by
  have hnone : st.cache.itemId = none := by rw [hcache]; rfl
  have hsw0 : ¬ (optTruthy st.cache.itemId = true ∧ st.cache.itemId ≠ some "A") := by
    rw [hnone]
    rintro ⟨h, _⟩
    simp [optTruthy] at h
  have hin0 : ¬ optTruthy st.cache.itemId = true ∨ st.cache.itemId ≠ some "A" := by
    rw [hnone]
    left
    simp [optTruthy]
  have h1 := processEvent_delta_noflush_create st "A" d₁ t₁ n₁ hd₁ (by decide) hsw0 hin0
  have hrun := processEvents_append_run "A" (by decide) evs hA
    { st with
      cache := ⟨some "A",
        some ⟨toString (genMessageId t₁ st.lastId), Role.assistant, "", some "A",
          "nobody", n₁⟩, d₁⟩,
      lastId := genMessageId t₁ st.lastId } rfl
  have hc : d₁ ++ deltasConcat evs ≠ "" := append_left_ne_empty d₁ (deltasConcat evs) hd₁
  have hflush := saveCached_flush st.db (some "A")
    ⟨toString (genMessageId t₁ st.lastId), Role.assistant, "", some "A", "nobody", n₁⟩
    (d₁ ++ deltasConcat evs) hc
  have hsc2 : (saveCachedAudioTranscript st.db
      (⟨some "A",
        some ⟨toString (genMessageId t₁ st.lastId), Role.assistant, "", some "A",
          "nobody", n₁⟩, d₁ ++ deltasConcat evs⟩ : Cache)).2 = emptyCache := by
    rw [hflush]
  have h2 := processEvent_delta_switch_create
    { st with
      cache := ⟨some "A",
        some ⟨toString (genMessageId t₁ st.lastId), Role.assistant, "", some "A",
          "nobody", n₁⟩, d₁ ++ deltasConcat evs⟩,
      lastId := genMessageId t₁ st.lastId }
    b d' tB nB hd' hbne
    ⟨rfl, fun h => hb (Option.some.inj h).symm⟩
    (by
      left
      rw [show ({ st with
          cache := ⟨some "A",
            some ⟨toString (genMessageId t₁ st.lastId), Role.assistant, "", some "A",
              "nobody", n₁⟩, d₁ ++ deltasConcat evs⟩,
          lastId := genMessageId t₁ st.lastId } : ClientState).cache =
        (⟨some "A",
          some ⟨toString (genMessageId t₁ st.lastId), Role.assistant, "", some "A",
            "nobody", n₁⟩, d₁ ++ deltasConcat evs⟩ : Cache) from rfl]
      rw [hsc2]
      simp [emptyCache, optTruthy])
  rw [show ((⟨Envelope.audioTranscriptDelta "A" d₁, t₁, n₁⟩ :: evs) ++
      [(⟨Envelope.audioTranscriptDelta b d', tB, nB⟩ : Event)]) =
    (⟨Envelope.audioTranscriptDelta "A" d₁, t₁, n₁⟩ : Event) ::
      (evs ++ [⟨Envelope.audioTranscriptDelta b d', tB, nB⟩]) from rfl]
  rw [processEvents_cons, h1]
  dsimp only
  rw [processEvents_append, hrun]
  dsimp only
  rw [processEvents_cons, h2]
  refine ⟨?_, ?_, ?_, ?_⟩
  · show ((((counterStep _ _ _).state.db).messages.filter _).map _) = _
    rw [counterStep_state_db]
    dsimp only
    rw [show (saveCachedAudioTranscript st.db
        (⟨some "A",
          some ⟨toString (genMessageId t₁ st.lastId), Role.assistant, "", some "A",
            "nobody", n₁⟩, d₁ ++ deltasConcat evs⟩ : Cache)).1 =
      (saveMessageS st.db
        ⟨toString (genMessageId t₁ st.lastId), Role.assistant, d₁ ++ deltasConcat evs,
          some "A", "nobody", n₁⟩).1 from by rw [hflush]]
    rw [saveMessageS_fst st.db _ hconn]
    dsimp only
    rw [filter_map_saveRow _ _ _ hnoA rfl]
    rfl
  · show (counterStep _ _ _).state.cache.itemId = _
    rw [counterStep_state_cache]
  · show ((counterStep _ _ _).state.cache.message.map _) = _
    rw [counterStep_state_cache]
    rfl
  · show (counterStep _ _ _).state.cache.content = _
    rw [counterStep_state_cache]

/-- Witness for claim C2 at a concrete client state: deltas `"Hel"`,
`"lo"` for `"A"`, then a delta `"Wo"` for `"B"`. -/
theorem claim_C2_flush_on_switch_witness :
    (((processEvents ⟨⟨true, [], []⟩, emptyCache, 0, 0, 10, true⟩
        ((⟨Envelope.audioTranscriptDelta "A" "Hel", 100, "d1"⟩ ::
          [⟨Envelope.audioTranscriptDelta "A" "lo", 101, "d2"⟩]) ++
          [⟨Envelope.audioTranscriptDelta "B" "Wo", 102, "d3"⟩])).db.messages.filter
        (fun r => r.item_id = some "A")).map (fun r => (r.role, r.content, r.item_id))) =
      [(Role.assistant,
        deltasConcat (⟨Envelope.audioTranscriptDelta "A" "Hel", 100, "d1"⟩ ::
          [⟨Envelope.audioTranscriptDelta "A" "lo", 101, "d2"⟩]), some "A")] ∧
    (processEvents ⟨⟨true, [], []⟩, emptyCache, 0, 0, 10, true⟩
        ((⟨Envelope.audioTranscriptDelta "A" "Hel", 100, "d1"⟩ ::
          [⟨Envelope.audioTranscriptDelta "A" "lo", 101, "d2"⟩]) ++
          [⟨Envelope.audioTranscriptDelta "B" "Wo", 102, "d3"⟩])).cache.itemId = some "B" ∧
    ((processEvents ⟨⟨true, [], []⟩, emptyCache, 0, 0, 10, true⟩
        ((⟨Envelope.audioTranscriptDelta "A" "Hel", 100, "d1"⟩ ::
          [⟨Envelope.audioTranscriptDelta "A" "lo", 101, "d2"⟩]) ++
          [⟨Envelope.audioTranscriptDelta "B" "Wo", 102, "d3"⟩])).cache.message.map
        (fun m => (m.role, m.content, m.item_id))) =
      some (Role.assistant, "", some "B") ∧
    (processEvents ⟨⟨true, [], []⟩, emptyCache, 0, 0, 10, true⟩
        ((⟨Envelope.audioTranscriptDelta "A" "Hel", 100, "d1"⟩ ::
          [⟨Envelope.audioTranscriptDelta "A" "lo", 101, "d2"⟩]) ++
          [⟨Envelope.audioTranscriptDelta "B" "Wo", 102, "d3"⟩])).cache.content = "Wo" :=
  claim_C2_flush_on_switch ⟨⟨true, [], []⟩, emptyCache, 0, 0, 10, true⟩ rfl rfl (by simp)
    "Hel" (by decide) 100 "d1" [⟨Envelope.audioTranscriptDelta "A" "lo", 101, "d2"⟩]
    (by
      intro e he
      simp only [List.mem_singleton] at he
      subst he
      exact ⟨"lo", rfl, by decide⟩)
    "B" "Wo" (by decide) (by decide) (by decide) 102 "d3"

end Ticos
